import Mathlib

/-!
Verification of the reddit comment-chain harvester of this repository
(`reddit_training` in `edward.py`, together with `get_reddit_envars` /
`get_reddit`).  Text is modelled as `List Char` (Python strings; `len`
counts code points, matching `List.length`).  The observable behaviour of
one harvest run is a trace of events: blocking sleeps, `bot.train` calls,
and the log calls made by the error handlers (routine `LOG.debug`/`LOG.info`
progress lines carry no claim-relevant information and are not modelled).
Python exceptions are modelled explicitly: a thread either completes
normally or raises one of the four handled error kinds after some number
of fully processed comments.
-/

abbrev Text := List Char

/-- Python `s.strip(chars)`: remove from both ends every character that is a
member of the character set `chars` (edward.py line 378 uses
`.strip('/r/').strip('^')`). -/
def pyStrip (chars : Text) (s : Text) : Text :=
  ((s.dropWhile (chars.contains ·)).reverse.dropWhile (chars.contains ·)).reverse

/-- `reply = rep.body.strip('/r/').strip('^')` (edward.py line 378). -/
def cleanReply (b : Text) : Text :=
  pyStrip "^".toList (pyStrip "/r/".toList b)

/-- The rejected sentinel `'[removed]'` (edward.py line 380). -/
def removedMarker : Text := "[removed]".toList

/-- The `'[deleted]'` sentinel mentioned by the docs (comments whose author
vanished); the reply filter itself never tests for it. -/
def deletedMarker : Text := "[deleted]".toList

/-- The reply filter of edward.py lines 379-380: a cleaned reply is kept
iff `len(reply) < 80` and `not reply == '[removed]'`. -/
def acceptReply (r : Text) : Bool :=
  decide (r.length < 80) && decide (r ≠ removedMarker)

/-- A comment node as the harvester reads it: its `body` and the bodies of
its direct `replies` (edward.py lines 376-377 use only `comment.body` and
`rep.body`). -/
structure RComment where
  body : Text
  replies : List Text
deriving DecidableEq

/-- A submission: `submission.author` may be `None` (deleted), and after
`replace_more(limit=0)`/`comments.list()` the comments form a flat list
(edward.py lines 362-369); we model that already-flattened list. -/
structure Submission where
  author : Option Text
  comments : List RComment
deriving DecidableEq

/-- The inner reply loop of edward.py lines 374-384: starting from
`sub_comments = [comment.body]`, append each cleaned reply that passes the
filter, in source order. -/
def appendReplies (subComments : List Text) : List Text → List Text
  | [] => subComments
  | rep :: rest =>
      let reply := cleanReply rep
      if reply.length < 80 then
        if reply ≠ removedMarker then
          appendReplies (subComments ++ [reply]) rest
        else
          appendReplies subComments rest
      else
        appendReplies subComments rest

/-- The `sub_comments` list built for one comment (edward.py lines 374-384). -/
def buildSeq (c : RComment) : List Text :=
  appendReplies [c.body] c.replies

/-- The cleaned replies of `c` that pass the filter, in source order. -/
def acceptedReplies (c : RComment) : List Text :=
  (c.replies.map cleanReply).filter acceptReply

/-- Observable events of one harvest run: blocking sleeps (seconds),
`bot.train(sub_comments)` calls, and the error/warning log calls of the
exception handlers. -/
inductive Event where
  | sleep (seconds : ℚ)
  | train (seq : List Text)
  | logError
  | logWarn
deriving DecidableEq

/-- `slp = 0.1` (edward.py line 345), as the rational 1/10. -/
def slp : ℚ := mkRat 1 10

/-- Processing one comment (edward.py lines 371-393): `sleep(slp)` first,
then build `sub_comments`; train the bot iff `len(sub_comments) >= 5`. -/
def processComment (c : RComment) : List Event :=
  Event.sleep slp ::
    (let subComments := buildSeq c
     if subComments.length < 5 then [] else [Event.train subComments])

/-- Processing one submission that raises no exception (edward.py lines
362-393): if `submission.author` is `None` nothing happens; otherwise every
comment of the flattened list is processed in order. -/
def processSubmission (s : Submission) : List Event :=
  match s.author with
  | none => []
  | some _ => (s.comments.map processComment).flatten

/-- The four exception kinds handled by edward.py lines 395-408. -/
inductive PrawError where
  | apiException (msg : Text)
  | clientException (msg : Text)
  | prawException (msg : Text)
  | assertionError (msg : Text)
deriving DecidableEq

/-- `leadsWith n h` : `n` is an initial segment of `h`. -/
def leadsWith : Text → Text → Bool
  | [], _ => true
  | _ :: _, [] => false
  | a :: as, b :: bs => a == b && leadsWith as bs

/-- `containsSeq n h` : `n` occurs contiguously inside `h` (Python's
substring test `n in h`). -/
def containsSeq (needle : Text) : Text → Bool
  | [] => leadsWith needle []
  | b :: bs => leadsWith needle (b :: bs) || containsSeq needle bs

/-- Python `'429' in '%s' % exc` (edward.py line 405). -/
def contains429 (msg : Text) : Bool := containsSeq "429".toList msg

/-- The `except` clauses of edward.py lines 395-408: each praw exception is
logged once; an `AssertionError` whose message contains `'429'` logs two
warnings and sleeps 60 seconds, any other `AssertionError` does nothing. -/
def handleError : PrawError → List Event
  | .apiException _ => [Event.logError]
  | .clientException _ => [Event.logError]
  | .prawException _ => [Event.logError]
  | .assertionError msg =>
      if contains429 msg then [Event.logWarn, Event.logWarn, Event.sleep 60]
      else []

/-- One submission of a harvest run: either the `try` body completes
(`ok`), or an exception `e` is raised after the first `k` comments were
fully processed (`failsAfter`; `k = 0` covers an error before or at the
author check, and when the author is absent no comment is ever processed). -/
inductive ThreadRun where
  | ok (s : Submission)
  | failsAfter (s : Submission) (k : Nat) (e : PrawError)
deriving DecidableEq

/-- The comments a thread actually gets through: none when the author is
absent, all of them on success, the first `k` when an exception interrupts. -/
def threadComments : ThreadRun → List RComment
  | .ok s =>
      match s.author with
      | none => []
      | some _ => s.comments
  | .failsAfter s k _ =>
      match s.author with
      | none => []
      | some _ => s.comments.take k

/-- Events emitted by the `try` body before an exception raised after `k`
fully processed comments. -/
def eventsBeforeError (s : Submission) (k : Nat) : List Event :=
  match s.author with
  | none => []
  | some _ => ((s.comments.take k).map processComment).flatten

/-- One iteration of the submission loop, exceptions included (edward.py
lines 355-408). -/
def runThread : ThreadRun → List Event
  | .ok s => processSubmission s
  | .failsAfter s k e => eventsBeforeError s k ++ handleError e

/-- A whole harvest run over the fetched submissions, in order. -/
def harvest (ts : List ThreadRun) : List Event :=
  (ts.map runThread).flatten

/-- The sequences handed to `bot.train` during a trace, in order. -/
def trainedSeqs (evs : List Event) : List (List Text) :=
  evs.filterMap fun e =>
    match e with
    | Event.train sq => some sq
    | _ => none

/-- Number of `sleep(slp)` delay pauses in a trace. -/
def countDelayPauses (evs : List Event) : Nat :=
  evs.countP (· = Event.sleep slp)

/-- Total number of direct replies iterated over by the processed comments
of a run. -/
def repliesIn (ts : List ThreadRun) : Nat :=
  (((ts.map threadComments).flatten).map (fun c => c.replies.length)).sum

/-- Total number of comments processed in a run. -/
def commentsIn (ts : List ThreadRun) : Nat :=
  (ts.map (fun t => (threadComments t).length)).sum

/-- The minimum-length gate of edward.py lines 386-391: a `sub_comments`
list is trained on iff it has at least 5 elements. -/
def minLenOK (q : List Text) : Bool :=
  decide (5 ≤ q.length)

/-- `LOG.error(...)` followed by `sys.exit(1)`: the message printed and the
exit status. -/
structure ExitCall where
  message : Text
  status : Nat
deriving DecidableEq

/-- The remediation hint `LOG.error("export <VAR>=''")` printed for a
missing environment variable (edward.py lines 161, 167, 173, 179). -/
def exportHint (v : Text) : Text :=
  "export ".toList ++ v ++ "=''".toList

def REDDIT_CLIENT_ID : Text := "REDDIT_CLIENT_ID".toList
def REDDIT_CLIENT_SECRET : Text := "REDDIT_CLIENT_SECRET".toList
def REDDIT_USERNAME : Text := "REDDIT_USERNAME".toList
def REDDIT_PASSWORD : Text := "REDDIT_PASSWORD".toList

/-- The four required reddit credential variables, in the order checked. -/
def redditEnvVars : List Text :=
  [REDDIT_CLIENT_ID, REDDIT_CLIENT_SECRET, REDDIT_USERNAME, REDDIT_PASSWORD]

/-- `get_reddit_envars` (edward.py lines 154-184): the environment is a
partial map from variable names to values; the first unset variable makes
the process log its export hint and exit with status 1. -/
def get_reddit_envars (env : Text → Option Text) :
    Except ExitCall (Text × Text × Text × Text) :=
  match env REDDIT_CLIENT_ID with
  | none => Except.error ⟨exportHint REDDIT_CLIENT_ID, 1⟩
  | some client_id =>
      match env REDDIT_CLIENT_SECRET with
      | none => Except.error ⟨exportHint REDDIT_CLIENT_SECRET, 1⟩
      | some client_secret =>
          match env REDDIT_USERNAME with
          | none => Except.error ⟨exportHint REDDIT_USERNAME, 1⟩
          | some username =>
              match env REDDIT_PASSWORD with
              | none => Except.error ⟨exportHint REDDIT_PASSWORD, 1⟩
              | some password =>
                  Except.ok (client_id, client_secret, username, password)

/-- The praw network client; constructing one is the first network call. -/
structure RedditClient where
  client_id : Text
  client_secret : Text
  username : Text
  password : Text
deriving DecidableEq

/-- `get_reddit` (edward.py lines 187-214): the credentials are read first,
and `praw.Reddit(...)` — the first network call — is only reached when all
four are present. -/
def get_reddit (env : Text → Option Text) : Except ExitCall RedditClient :=
  match get_reddit_envars env with
  | Except.error e => Except.error e
  | Except.ok (client_id, client_secret, username, password) =>
      Except.ok ⟨client_id, client_secret, username, password⟩

/-! ## Concrete fixtures used to instantiate the quantified statements -/

def c1Comment : RComment := ⟨"head".toList, ["ok reply".toList]⟩

def c1Reply : Text := "ok reply".toList

def c2Comment : RComment :=
  ⟨"hi".toList, ["a".toList, "b".toList, "c".toList, "d".toList]⟩

def c2Sub : Submission := ⟨some "alice".toList, [c2Comment]⟩

def c3Sub : Submission := ⟨none, [⟨"hello".toList, []⟩]⟩

def c4Sub : Submission :=
  ⟨some "alice".toList, [⟨"hi".toList, ["a".toList, "b".toList]⟩]⟩

def c5Sub1 : Submission := ⟨some "u1".toList, [⟨"t1".toList, []⟩]⟩

def c5Sub2 : Submission :=
  ⟨some "u2".toList, [⟨"t2".toList, []⟩, ⟨"t2b".toList, []⟩]⟩

def c5Sub3 : Submission := ⟨some "u3".toList, [⟨"t3".toList, []⟩]⟩

def c5Msg : Text := "received 429 HTTP response".toList

def c6Sub1 : Submission := ⟨some "v1".toList, [⟨"s1".toList, []⟩]⟩

def c6Sub2 : Submission := ⟨some "v2".toList, [⟨"s2".toList, []⟩]⟩

def c6Sub3 : Submission := ⟨some "v3".toList, [⟨"s3".toList, []⟩]⟩

def c6Msg : Text := "invalid scope".toList

def c7Env : Text → Option Text :=
  fun v => if v = REDDIT_CLIENT_SECRET then none else some "x".toList

def c8Comment : RComment :=
  ⟨"hi".toList, ["a".toList, "b".toList, "c".toList, "d".toList]⟩

def c8Runs : List ThreadRun := [ThreadRun.ok ⟨some "ann".toList, [c8Comment]⟩]

def c8Seq : List Text :=
  ["hi".toList, "a".toList, "b".toList, "c".toList, "d".toList]

def c9Comment : RComment :=
  ⟨"[removed]".toList, ["a".toList, "b".toList, "c".toList, "d".toList]⟩

def c10Sub1 : Submission := ⟨some "w1".toList, [⟨"q1".toList, []⟩]⟩

def c10Sub2 : Submission := ⟨some "w2".toList, [⟨"q2".toList, []⟩]⟩

def c10Sub3 : Submission := ⟨some "w3".toList, [⟨"q3".toList, []⟩]⟩

def c10Msg : Text := "something else went wrong".toList

/-! ## Basic lemmas about the harvester -/

lemma acceptReply_iff (r : Text) :
    acceptReply r = true ↔ r.length < 80 ∧ r ≠ removedMarker := by
  simp [acceptReply]

lemma appendReplies_eq (reps : List Text) (acc : List Text) :
    appendReplies acc reps = acc ++ (reps.map cleanReply).filter acceptReply := by
  induction reps generalizing acc with
  | nil => simp [appendReplies]
  | cons rep rest ih =>
      by_cases h1 : (cleanReply rep).length < 80
      · by_cases h2 : cleanReply rep ≠ removedMarker
        · rw [appendReplies, if_pos h1, if_pos h2, ih]
          have hacc : acceptReply (cleanReply rep) = true :=
            (acceptReply_iff _).mpr ⟨h1, h2⟩
          simp [hacc]
        · rw [appendReplies, if_pos h1, if_neg h2, ih]
          have hacc : acceptReply (cleanReply rep) = false := by
            simp only [acceptReply, Bool.and_eq_false_iff, decide_eq_false_iff_not]
            right; exact h2
          simp [hacc]
      · rw [appendReplies, if_neg h1, ih]
        have hacc : acceptReply (cleanReply rep) = false := by
          simp only [acceptReply, Bool.and_eq_false_iff, decide_eq_false_iff_not]
          left; exact h1
        simp [hacc]

lemma buildSeq_eq (c : RComment) :
    buildSeq c = c.body :: acceptedReplies c := by
  rw [buildSeq, appendReplies_eq, acceptedReplies]
  rfl

lemma trainedSeqs_append (l1 l2 : List Event) :
    trainedSeqs (l1 ++ l2) = trainedSeqs l1 ++ trainedSeqs l2 :=
  List.filterMap_append ..

lemma trainedSeqs_processComment (c : RComment) :
    trainedSeqs (processComment c) =
      if 5 ≤ (buildSeq c).length then [buildSeq c] else [] := by
  by_cases h : (buildSeq c).length < 5
  · rw [if_neg (by omega)]
    simp [processComment, trainedSeqs, h]
  · rw [if_pos (by omega)]
    simp [processComment, trainedSeqs, h]

lemma trainedSeqs_flattenMap (cs : List RComment) :
    trainedSeqs ((cs.map processComment).flatten) =
      (cs.map buildSeq).filter minLenOK := by
  induction cs with
  | nil => simp [trainedSeqs]
  | cons c rest ih =>
      rw [List.map_cons, List.flatten_cons, trainedSeqs_append, ih,
        trainedSeqs_processComment, List.map_cons]
      by_cases h : 5 ≤ (buildSeq c).length
      · rw [if_pos h, List.filter_cons_of_pos (by simpa [minLenOK] using h)]
        rfl
      · rw [if_neg h, List.filter_cons_of_neg (by simpa [minLenOK] using h)]
        rfl

lemma trainedSeqs_handleError (e : PrawError) :
    trainedSeqs (handleError e) = [] := by
  cases e with
  | assertionError msg =>
      rw [handleError]
      split <;> simp [trainedSeqs]
  | apiException msg => simp [handleError, trainedSeqs]
  | clientException msg => simp [handleError, trainedSeqs]
  | prawException msg => simp [handleError, trainedSeqs]

lemma runThread_events (t : ThreadRun) :
    runThread t = ((threadComments t).map processComment).flatten ++
      (match t with
       | ThreadRun.ok _ => []
       | ThreadRun.failsAfter _ _ e => handleError e) := by
  cases t with
  | ok s =>
      cases hs : s.author with
      | none => simp [runThread, processSubmission, threadComments, hs]
      | some a => simp [runThread, processSubmission, threadComments, hs]
  | failsAfter s k e =>
      cases hs : s.author with
      | none => simp [runThread, eventsBeforeError, threadComments, hs]
      | some a => simp [runThread, eventsBeforeError, threadComments, hs]

lemma trainedSeqs_runThread (t : ThreadRun) :
    trainedSeqs (runThread t) = ((threadComments t).map buildSeq).filter minLenOK := by
  rw [runThread_events, trainedSeqs_append, trainedSeqs_flattenMap]
  cases t with
  | ok s => simp [trainedSeqs]
  | failsAfter s k e => simp [trainedSeqs_handleError]

lemma harvest_cons (t : ThreadRun) (ts : List ThreadRun) :
    harvest (t :: ts) = runThread t ++ harvest ts := by
  simp [harvest]

lemma harvest_append (l1 l2 : List ThreadRun) :
    harvest (l1 ++ l2) = harvest l1 ++ harvest l2 := by
  simp [harvest]

lemma trainedSeqs_harvest (ts : List ThreadRun) :
    trainedSeqs (harvest ts) =
      (ts.map (fun t => ((threadComments t).map buildSeq).filter minLenOK)).flatten := by
  induction ts with
  | nil => simp [harvest, trainedSeqs]
  | cons t rest ih =>
      rw [harvest_cons, trainedSeqs_append, ih, trainedSeqs_runThread, List.map_cons,
        List.flatten_cons]

lemma countDelayPauses_append (l1 l2 : List Event) :
    countDelayPauses (l1 ++ l2) = countDelayPauses l1 + countDelayPauses l2 :=
  List.countP_append ..

lemma sleep60_ne_delay : (Event.sleep 60 = Event.sleep slp) = False := by
  simp only [eq_iff_iff, iff_false]
  intro h
  have : (60 : ℚ) = slp := by injection h
  exact absurd this (by decide)

lemma countDelayPauses_processComment (c : RComment) :
    countDelayPauses (processComment c) = 1 := by
  rw [processComment]
  by_cases h : (buildSeq c).length < 5 <;>
    simp [countDelayPauses, h, List.countP_cons, List.countP_nil]

lemma countDelayPauses_handleError (e : PrawError) :
    countDelayPauses (handleError e) = 0 := by
  cases e with
  | assertionError msg =>
      simp only [handleError]
      split <;> decide
  | apiException msg => simp only [handleError]; decide
  | clientException msg => simp only [handleError]; decide
  | prawException msg => simp only [handleError]; decide

lemma countDelayPauses_flattenMap (cs : List RComment) :
    countDelayPauses ((cs.map processComment).flatten) = cs.length := by
  induction cs with
  | nil => simp [countDelayPauses]
  | cons c rest ih =>
      rw [List.map_cons, List.flatten_cons, countDelayPauses_append, ih,
        countDelayPauses_processComment, List.length_cons]
      omega

/-! ## The claims -/

/-- C1: a direct reply is appended to its comment's TrainingSequence exactly
when its cleaned text is shorter than 80 characters and differs from
`'[removed]'`; a reply with cleaned length ≥ 80, or equal to the rejected
marker, never appears (as a reply element) in any emitted sequence. -/
theorem spec_c1 :
    (∀ (c : RComment) (r : Text), r ∈ c.replies →
      (cleanReply r ∈ (buildSeq c).tail ↔
        (cleanReply r).length < 80 ∧ cleanReply r ≠ removedMarker))
    ∧ (∀ (ts : List ThreadRun) (sq : List Text) (x : Text),
        sq ∈ trainedSeqs (harvest ts) → x ∈ sq.tail →
        x.length < 80 ∧ x ≠ removedMarker) := by
  constructor
  · intro c r hr
    rw [buildSeq_eq, List.tail_cons, acceptedReplies]
    constructor
    · intro hx
      exact (acceptReply_iff _).mp (List.mem_filter.mp hx).2
    · intro hx
      exact List.mem_filter.mpr
        ⟨List.mem_map.mpr ⟨r, hr, rfl⟩, (acceptReply_iff _).mpr hx⟩
  · intro ts sq x hsq hx
    rw [trainedSeqs_harvest] at hsq
    rcases List.mem_flatten.mp hsq with ⟨l, hl, hsql⟩
    rcases List.mem_map.mp hl with ⟨t, _ht, rfl⟩
    rcases List.mem_filter.mp hsql with ⟨hmem, _hlen⟩
    rcases List.mem_map.mp hmem with ⟨c, _hc, rfl⟩
    rw [buildSeq_eq, List.tail_cons, acceptedReplies] at hx
    exact (acceptReply_iff _).mp (List.mem_filter.mp hx).2

theorem spec_c1_witness :
    c1Reply ∈ c1Comment.replies ∧
      (cleanReply c1Reply ∈ (buildSeq c1Comment).tail ↔
        (cleanReply c1Reply).length < 80 ∧ cleanReply c1Reply ≠ removedMarker) :=
  ⟨by decide, spec_c1.1 c1Comment c1Reply (by decide)⟩

/-- C2: a comment's TrainingSequence is handed to the training sink exactly
when its total length (comment body plus accepted replies) is at least 5;
shorter sequences are discarded and never trained on. -/
theorem spec_c2 :
    (∀ c : RComment,
      trainedSeqs (processComment c) =
        if 5 ≤ (buildSeq c).length then [buildSeq c] else [])
    ∧ (∀ c : RComment,
        (buildSeq c).length < 5 → trainedSeqs (processComment c) = [])
    ∧ (∀ (s : Submission) (a : Text), s.author = some a →
        trainedSeqs (processSubmission s) =
          (s.comments.map buildSeq).filter minLenOK) := by
  refine ⟨trainedSeqs_processComment, ?_, ?_⟩
  · intro c h
    rw [trainedSeqs_processComment, if_neg (by omega)]
  · intro s a hs
    rw [processSubmission, hs, trainedSeqs_flattenMap]

theorem spec_c2_witness :
    c2Sub.author = some "alice".toList ∧
      trainedSeqs (processSubmission c2Sub) =
        (c2Sub.comments.map buildSeq).filter minLenOK :=
  ⟨rfl, spec_c2.2.2 c2Sub "alice".toList rfl⟩

/-- C3: a thread whose author field is absent is skipped entirely: it
produces no events at all (in particular zero TrainingSequences), and since
its `try` body only runs the author test, no error occurs. -/
theorem spec_c3 : ∀ s : Submission, s.author = none →
    runThread (ThreadRun.ok s) = [] ∧
      trainedSeqs (harvest [ThreadRun.ok s]) = [] := by
  intro s hs
  have h1 : runThread (ThreadRun.ok s) = [] := by
    simp [runThread, processSubmission, hs]
  refine ⟨h1, ?_⟩
  simp [harvest, h1, trainedSeqs]

theorem spec_c3_witness :
    c3Sub.author = none ∧
      (runThread (ThreadRun.ok c3Sub) = [] ∧
        trainedSeqs (harvest [ThreadRun.ok c3Sub]) = []) :=
  ⟨rfl, spec_c3 c3Sub rfl⟩

/-- C9: the length bound and rejected-marker filter apply only to replies,
never to the head comment — a comment whose own body is `'[removed]'`,
`'[deleted]'`, or 80+ characters long is still emitted as the first element
whenever at least 4 replies are accepted. -/
theorem spec_c9 : ∀ c : RComment,
    (c.body = removedMarker ∨ c.body = deletedMarker ∨ 80 ≤ c.body.length) →
    4 ≤ (acceptedReplies c).length →
    trainedSeqs (processComment c) = [c.body :: acceptedReplies c] := by
  intro c _ h4
  rw [trainedSeqs_processComment, buildSeq_eq,
    if_pos (by simp only [List.length_cons]; omega)]

theorem spec_c9_witness :
    c9Comment.body = removedMarker ∧ 4 ≤ (acceptedReplies c9Comment).length ∧
      trainedSeqs (processComment c9Comment) =
        [c9Comment.body :: acceptedReplies c9Comment] :=
  ⟨rfl, by decide, spec_c9 c9Comment (Or.inl rfl) (by decide)⟩

/-- C4 counterexample: a run over one thread with one comment that has two
replies performs exactly one delay pause, while two replies are processed —
the pause count tracks comments, not replies. -/
theorem spec_c4_counterexample :
    countDelayPauses (harvest [ThreadRun.ok c4Sub]) = 1 ∧
      repliesIn [ThreadRun.ok c4Sub] = 2 ∧
      countDelayPauses (harvest [ThreadRun.ok c4Sub]) ≠
        repliesIn [ThreadRun.ok c4Sub] :=
  ⟨by decide, by decide, by decide⟩

/-- C4 (amended): the cooperative `sleep(slp)` pause is inserted before
processing each comment — over a harvest run the number of delay pauses
equals the number of comments processed, not the number of replies. -/
theorem spec_c4 : ∀ ts : List ThreadRun,
    countDelayPauses (harvest ts) = commentsIn ts := by
  intro ts
  induction ts with
  | nil => simp [harvest, commentsIn, countDelayPauses]
  | cons t rest ih =>
      have hthread : countDelayPauses (runThread t) = (threadComments t).length := by
        rw [runThread_events, countDelayPauses_append, countDelayPauses_flattenMap]
        cases t with
        | ok s => simp [countDelayPauses]
        | failsAfter s k e => simp [countDelayPauses_handleError]
      rw [harvest_cons, countDelayPauses_append, ih, hthread]
      simp [commentsIn]

/-- C5: an `AssertionError` whose message contains `'429'`, raised while
processing a thread, makes the harvester emit its two warnings and sleep
for 60 seconds, then continue with the remaining threads; events already
emitted for earlier threads are preserved unchanged and the run is not
terminated (the current thread contributes only its pre-error events). -/
theorem spec_c5 : ∀ (ts1 ts2 : List ThreadRun) (s : Submission) (k : Nat)
    (msg : Text), contains429 msg = true →
    harvest (ts1 ++ ThreadRun.failsAfter s k (PrawError.assertionError msg) :: ts2) =
      harvest ts1 ++ eventsBeforeError s k ++
        [Event.logWarn, Event.logWarn, Event.sleep 60] ++ harvest ts2 := by
  intro ts1 ts2 s k msg h
  rw [harvest_append, harvest_cons]
  simp [runThread, handleError, h]

theorem spec_c5_witness :
    contains429 c5Msg = true ∧
      harvest ([ThreadRun.ok c5Sub1] ++
          ThreadRun.failsAfter c5Sub2 1 (PrawError.assertionError c5Msg) ::
            [ThreadRun.ok c5Sub3]) =
        harvest [ThreadRun.ok c5Sub1] ++ eventsBeforeError c5Sub2 1 ++
          [Event.logWarn, Event.logWarn, Event.sleep 60] ++
            harvest [ThreadRun.ok c5Sub3] :=
  ⟨by decide,
    spec_c5 [ThreadRun.ok c5Sub1] [ThreadRun.ok c5Sub3] c5Sub2 1 c5Msg (by decide)⟩

/-- C6: an API, client-side, or generic platform error raised while
processing a thread is caught and logged once; the thread's remaining
comments are skipped with no retry (the thread contributes only its
pre-error events, exactly once) and the run continues with the next
threads; the error is never terminal. -/
theorem spec_c6 : ∀ (ts1 ts2 : List ThreadRun) (s : Submission) (k : Nat)
    (e : PrawError),
    (∃ m : Text, e = PrawError.apiException m ∨ e = PrawError.clientException m ∨
      e = PrawError.prawException m) →
    harvest (ts1 ++ ThreadRun.failsAfter s k e :: ts2) =
      harvest ts1 ++ eventsBeforeError s k ++ [Event.logError] ++ harvest ts2 := by
  intro ts1 ts2 s k e he
  have hh : handleError e = [Event.logError] := by
    rcases he with ⟨m, h | h | h⟩ <;> subst h <;> rfl
  rw [harvest_append, harvest_cons]
  simp [runThread, hh]

theorem spec_c6_witness :
    (∃ m : Text, PrawError.apiException c6Msg = PrawError.apiException m ∨
        PrawError.apiException c6Msg = PrawError.clientException m ∨
        PrawError.apiException c6Msg = PrawError.prawException m) ∧
      harvest ([ThreadRun.ok c6Sub1] ++
          ThreadRun.failsAfter c6Sub2 0 (PrawError.apiException c6Msg) ::
            [ThreadRun.ok c6Sub3]) =
        harvest [ThreadRun.ok c6Sub1] ++ eventsBeforeError c6Sub2 0 ++
          [Event.logError] ++ harvest [ThreadRun.ok c6Sub3] :=
  ⟨⟨c6Msg, Or.inl rfl⟩,
    spec_c6 [ThreadRun.ok c6Sub1] [ThreadRun.ok c6Sub3] c6Sub2 0
      (PrawError.apiException c6Msg) ⟨c6Msg, Or.inl rfl⟩⟩

/-- C10: an `AssertionError` whose message does not contain `'429'` is
silently absorbed: the handler emits no log entry and no back-off pause,
and the harvest continues with the remaining threads unchanged. -/
theorem spec_c10 : ∀ (ts1 ts2 : List ThreadRun) (s : Submission) (k : Nat)
    (msg : Text), contains429 msg = false →
    handleError (PrawError.assertionError msg) = [] ∧
      harvest (ts1 ++ ThreadRun.failsAfter s k (PrawError.assertionError msg) :: ts2) =
        harvest ts1 ++ eventsBeforeError s k ++ harvest ts2 := by
  intro ts1 ts2 s k msg h
  have hh : handleError (PrawError.assertionError msg) = [] := by
    simp [handleError, h]
  refine ⟨hh, ?_⟩
  rw [harvest_append, harvest_cons]
  simp [runThread, hh]

theorem spec_c10_witness :
    contains429 c10Msg = false ∧
      (handleError (PrawError.assertionError c10Msg) = [] ∧
        harvest ([ThreadRun.ok c10Sub1] ++
            ThreadRun.failsAfter c10Sub2 1 (PrawError.assertionError c10Msg) ::
              [ThreadRun.ok c10Sub3]) =
          harvest [ThreadRun.ok c10Sub1] ++ eventsBeforeError c10Sub2 1 ++
            harvest [ThreadRun.ok c10Sub3]) :=
  ⟨by decide,
    spec_c10 [ThreadRun.ok c10Sub1] [ThreadRun.ok c10Sub3] c10Sub2 1 c10Msg
      (by decide)⟩

/-- C7: if any of the four required reddit credential environment variables
is unset, `get_reddit_envars` ends the process with exit status 1 (non
zero) after printing the remediation hint naming an unset variable, and
`get_reddit` never reaches the `praw.Reddit` construction — no network
call is attempted. -/
theorem spec_c7 : ∀ env : Text → Option Text,
    (∃ v ∈ redditEnvVars, env v = none) →
    ∃ w ∈ redditEnvVars, env w = none ∧
      get_reddit_envars env = Except.error ⟨exportHint w, 1⟩ ∧
      get_reddit env = Except.error ⟨exportHint w, 1⟩ ∧
      (ExitCall.mk (exportHint w) 1).status ≠ 0 := by
  intro env hv
  cases h1 : env REDDIT_CLIENT_ID with
  | none =>
      exact ⟨REDDIT_CLIENT_ID, by simp [redditEnvVars], h1,
        by simp [get_reddit_envars, h1],
        by simp [get_reddit, get_reddit_envars, h1], by decide⟩
  | some a =>
      cases h2 : env REDDIT_CLIENT_SECRET with
      | none =>
          exact ⟨REDDIT_CLIENT_SECRET, by simp [redditEnvVars], h2,
            by simp [get_reddit_envars, h1, h2],
            by simp [get_reddit, get_reddit_envars, h1, h2], by decide⟩
      | some b =>
          cases h3 : env REDDIT_USERNAME with
          | none =>
              exact ⟨REDDIT_USERNAME, by simp [redditEnvVars], h3,
                by simp [get_reddit_envars, h1, h2, h3],
                by simp [get_reddit, get_reddit_envars, h1, h2, h3], by decide⟩
          | some c =>
              cases h4 : env REDDIT_PASSWORD with
              | none =>
                  exact ⟨REDDIT_PASSWORD, by simp [redditEnvVars], h4,
                    by simp [get_reddit_envars, h1, h2, h3, h4],
                    by simp [get_reddit, get_reddit_envars, h1, h2, h3, h4],
                    by decide⟩
              | some d =>
                  exfalso
                  rcases hv with ⟨v, hvmem, hvnone⟩
                  simp only [redditEnvVars, List.mem_cons,
                    List.not_mem_nil, or_false] at hvmem
                  rcases hvmem with h | h | h | h <;> subst h <;> simp_all

theorem spec_c7_witness :
    (∃ v ∈ redditEnvVars, c7Env v = none) ∧
      ∃ w ∈ redditEnvVars, c7Env w = none ∧
        get_reddit_envars c7Env = Except.error ⟨exportHint w, 1⟩ ∧
        get_reddit c7Env = Except.error ⟨exportHint w, 1⟩ ∧
        (ExitCall.mk (exportHint w) 1).status ≠ 0 :=
  ⟨⟨REDDIT_CLIENT_SECRET, by decide, by decide⟩,
    spec_c7 c7Env ⟨REDDIT_CLIENT_SECRET, by decide, by decide⟩⟩

/-- C8: every emitted TrainingSequence starts with the originating
comment's body, its remaining elements are exactly the cleaned replies that
passed the filter, in source order; sequences shorter than 5 are never
emitted, and a thread emits at most one sequence per processed comment. -/
theorem spec_c8 :
    (∀ (ts : List ThreadRun) (sq : List Text), sq ∈ trainedSeqs (harvest ts) →
      5 ≤ sq.length ∧
        ∃ t ∈ ts, ∃ c ∈ threadComments t, sq = c.body :: acceptedReplies c)
    ∧ (∀ t : ThreadRun,
        (trainedSeqs (runThread t)).length ≤ (threadComments t).length) := by
  constructor
  · intro ts sq hsq
    rw [trainedSeqs_harvest] at hsq
    rcases List.mem_flatten.mp hsq with ⟨l, hl, hsql⟩
    rcases List.mem_map.mp hl with ⟨t, ht, rfl⟩
    rcases List.mem_filter.mp hsql with ⟨hmem, hlen⟩
    rcases List.mem_map.mp hmem with ⟨c, hc, rfl⟩
    refine ⟨?_, t, ht, c, hc, buildSeq_eq c⟩
    simpa [minLenOK] using hlen
  · intro t
    rw [trainedSeqs_runThread]
    calc (((threadComments t).map buildSeq).filter minLenOK).length
        ≤ ((threadComments t).map buildSeq).length := List.length_filter_le ..
      _ = (threadComments t).length := List.length_map ..

theorem spec_c8_witness :
    c8Seq ∈ trainedSeqs (harvest c8Runs) ∧
      (5 ≤ c8Seq.length ∧
        ∃ t ∈ c8Runs, ∃ c ∈ threadComments t,
          c8Seq = c.body :: acceptedReplies c) :=
  ⟨by decide, spec_c8.1 c8Runs c8Seq (by decide)⟩
